import Mathlib

/-!
Verification of the alier-node request-routing core against its
natural-language specification.  The definitions below are shallow
embeddings of the JavaScript sources: `src/Copyutil.js` (safe JSON
deserialisation), `src/PatternMap.js` (the path-pattern trie),
`src/_WebEntity.js` (authentication dispatch), the credentials header
grammar of `src/RequestParser.js`, `src/WebApi.js` (method support
introspection) and `src/Router.js` (routing pipeline and response
assembly).  Machine-level details without semantic content for the
properties below (byte buffers, content-length bookkeeping of the
serialised body, the HTTP socket) are abstracted; every branch of the
translated control flow follows the JavaScript line by line.
-/

namespace Alier

/-- JSON values as produced by the built-in `JSON.parse` before the
reviver runs: null, booleans, numbers, strings, arrays and objects,
the latter as ordered key-value lists (JavaScript object insertion
order).  Numbers are modelled as integers; numeric precision plays no
role in the properties below. -/
inductive Json where
  | null : Json
  | bool (b : Bool) : Json
  | num (n : Int) : Json
  | str (s : String) : Json
  | arr (elems : List Json) : Json
  | obj (members : List (String × Json)) : Json
deriving Repr

mutual

/-- Reviver pass of `parseJson` from `src/Copyutil.js` (lines 33-58):
`JSON.parse` is called with a reviver returning `undefined` for every
key equal to `"__proto__"`, which deletes that member from its holder;
all other values are kept.  The built-in parse itself is modelled as
the identity on an already-built `Json` tree, so this function is the
net effect of the reviver on the parsed value. -/
def parseJsonRevive : Json → Json
  | .null => .null
  | .bool b => .bool b
  | .num n => .num n
  | .str s => .str s
  | .arr xs => .arr (parseJsonReviveList xs)
  | .obj kvs => .obj (parseJsonReviveMembers kvs)

/-- Reviver pass mapped over array elements (array indices are never
the string `"__proto__"`, so elements are only rewritten, not
deleted). -/
def parseJsonReviveList : List Json → List Json
  | [] => []
  | x :: xs => parseJsonRevive x :: parseJsonReviveList xs

/-- Reviver pass over the members of an object: a member whose key is
`"__proto__"` is deleted, every other member keeps its key and has its
value revived. -/
def parseJsonReviveMembers : List (String × Json) → List (String × Json)
  | [] => []
  | (k, v) :: rest =>
    if k = "__proto__" then parseJsonReviveMembers rest
    else (k, parseJsonRevive v) :: parseJsonReviveMembers rest

end

/-- Model of `parseJson` from `src/Copyutil.js`: the built-in JSON
parse (abstracted as the given tree) composed with the
`__proto__`-rejecting reviver. -/
def parseJson (j : Json) : Json := parseJsonRevive j

mutual

/-- Tests whether a JSON value contains, at any nesting depth, an own
object member whose key is `"__proto__"`. -/
def hasProtoKey : Json → Bool
  | .null => false
  | .bool _ => false
  | .num _ => false
  | .str _ => false
  | .arr xs => hasProtoKeyList xs
  | .obj kvs => hasProtoKeyMembers kvs

/-- List form of `hasProtoKey`. -/
def hasProtoKeyList : List Json → Bool
  | [] => false
  | x :: xs => hasProtoKey x || hasProtoKeyList xs

/-- Member form of `hasProtoKey`: true when some key is `"__proto__"`
or some value contains one. -/
def hasProtoKeyMembers : List (String × Json) → Bool
  | [] => false
  | (k, v) :: rest =>
    if k = "__proto__" then true
    else hasProtoKey v || hasProtoKeyMembers rest

end

/-- JavaScript `String.prototype.startsWith`, written over the
character list of the string (the sources only apply it to ASCII
prefixes such as `":"` and `"\""`). -/
def jsStartsWith (s p : String) : Bool :=
  s.data.take p.data.length == p.data

/-- JavaScript `String.prototype.endsWith` over the character list. -/
def jsEndsWith (s p : String) : Bool :=
  s.data.reverse.take p.data.length == p.data.reverse

/-- JavaScript `String.prototype.toUpperCase` on the ASCII strings the
router handles (method names and override header values). -/
def jsToUpper (s : String) : String :=
  String.mk (s.data.map Char.toUpper)

/-- JavaScript `String.prototype.toLowerCase` on the ASCII strings the
router and the header grammar handle (method and scheme names). -/
def jsToLower (s : String) : String :=
  String.mk (s.data.map Char.toLower)

/-- Helper for `jsSplitOnSpace`: accumulates the current chunk in
reverse. -/
def splitOnSpaceAux : List Char → List Char → List String
  | [], acc => [String.mk acc.reverse]
  | c :: cs, acc =>
    if c = ' ' then String.mk acc.reverse :: splitOnSpaceAux cs []
    else splitOnSpaceAux cs (c :: acc)

/-- JavaScript `String.prototype.split(" ")`: the list of chunks
between space characters, empty chunks included, at least one chunk
always. -/
def jsSplitOnSpace (s : String) : List String :=
  splitOnSpaceAux s.data []

/-- Edge keys of the `PatternMap` trie (`src/PatternMap.js`): a literal
path segment, the `wordwise_wildcard` sentinel (a `Symbol` in the
source, produced for `":name"` parameter tokens) or the `wildcard`
sentinel (produced for a terminal `"*"` token). -/
inductive Key where
  | lit (s : String)
  | ww
  | w
deriving DecidableEq, Repr

/-- Node of the `PatternMap` trie (`__Node__` in `src/PatternMap.js`):
an optional value and an ordered child map keyed by `Key`.  The
JavaScript `Map` of descendants preserves insertion order, modelled as
an association list; the back-edge map used only for deletion is
omitted.  Values are drawn from `Nat`, standing in for the arbitrary
values the generic class stores. -/
inductive Trie where
  | node (value : Option Nat) (children : List (Key × Trie))

/-- Value stored at a trie node. -/
def Trie.value : Trie → Option Nat
  | .node v _ => v

/-- Children of a trie node. -/
def Trie.children : Trie → List (Key × Trie)
  | .node _ ch => ch

/-- Lookup in the descendants map, first match (JavaScript `Map.get`;
keys are unique in a `Map`, so first match is the match). -/
def lookupChild : List (Key × Trie) → Key → Option Trie
  | [], _ => none
  | (k, t) :: rest, key => if k = key then some t else lookupChild rest key

/-- Replacement of the entry for an existing key, preserving position
(JavaScript `Map.set` on a key already present). -/
def updateChild : List (Key × Trie) → Key → Trie → List (Key × Trie)
  | [], _, _ => []
  | (k, t) :: rest, key, t2 =>
    if k = key then (k, t2) :: rest else (k, t) :: updateChild rest key t2

/-- Overwrite of the value of a node (the assignment `node.value =
value` after the insertion loop of `PatternMap.set`). -/
def setNodeValue (v : Nat) : Trie → Trie
  | .node _ ch => .node (some v) ch

namespace PatternMap

/-- Empty trie, the initial `#root` node of a `PatternMap`. -/
def empty : Trie := .node none []

/-- Insertion loop of `PatternMap.set` (`src/PatternMap.js` lines
245-264) over the key sequence of a pattern: at each node, an existing
`wordwise_wildcard` child is traversed regardless of the current key;
otherwise an existing `wildcard` child ends the walk (`break`) and
receives the value; otherwise an existing child for the key is
traversed; otherwise a fresh node is appended under the key. -/
def setGo : List Key → Nat → Trie → Trie
  | [], v, t => setNodeValue v t
  | k :: ks, v, .node val ch =>
    match lookupChild ch Key.ww with
    | some c => .node val (updateChild ch Key.ww (setGo ks v c))
    | none =>
      match lookupChild ch Key.w with
      | some c => .node val (updateChild ch Key.w (setNodeValue v c))
      | none =>
        match lookupChild ch k with
        | some c => .node val (updateChild ch k (setGo ks v c))
        | none => .node val (ch ++ [(k, setGo ks v (.node none []))])

/-- Walk of `PatternMap.#getNode` (`src/PatternMap.js` lines 328-353):
at each node a `wildcard` child short-circuits and is returned; else
the step goes through the `wordwise_wildcard` child when present and
through the literal child otherwise. -/
def getNode : List Key → Trie → Option Trie
  | [], t => some t
  | key :: ks, t =>
    match lookupChild t.children Key.w with
    | some c => some c
    | none =>
      match
        (match lookupChild t.children Key.ww with
         | some c => some c
         | none => lookupChild t.children key) with
      | none => none
      | some next => getNode ks next

end PatternMap

/-- Kind of a pattern: `forward` means the final token is the terminal
wildcard `"*"`, every other registrable pattern is `exact`
(`src/Pattern.js`, as consumed by `PatternMap`). -/
inductive PatternKind where
  | exact
  | forward
deriving DecidableEq, Repr

/-- Pattern as consumed by `PatternMap.#getKeys`: the ordered token
sequence (each token a non-empty path segment, parameters keeping
their `":"` prefix) together with its kind. -/
structure Pattern where
  tokens : List String
  kind : PatternKind
deriving DecidableEq, Repr

namespace PatternMap

/-- Key chosen for one non-final pattern token in
`PatternMap.#getKeys`: tokens starting with `":"` map to the
`wordwise_wildcard` sentinel, all others to themselves. -/
def keyOfToken (s : String) : Key :=
  if jsStartsWith s ":" then Key.ww else Key.lit s

/-- Translation of `PatternMap.#getKeys` (`src/PatternMap.js` lines
355-380): every token but the last is mapped through `keyOfToken`; the
last position yields the `wildcard` sentinel for a `forward` pattern
and `keyOfToken` of the last token otherwise. -/
def getKeys : List String → PatternKind → List Key
  | [], _ => []
  | [t], kind => [if kind = PatternKind.forward then Key.w else keyOfToken t]
  | t :: t2 :: ts, kind => keyOfToken t :: getKeys (t2 :: ts) kind

/-- Model of `PatternMap.set`: run the insertion loop over the key
sequence of the pattern and store the value at the node reached.  The
source raises only on arguments that are not `Pattern` objects or have
a kind other than `exact`/`forward`; both are ruled out by the types
here, so the model is total. -/
def set (m : Trie) (p : Pattern) (v : Nat) : Trie :=
  setGo (getKeys p.tokens p.kind) v m

/-- Model of `PatternMap.get`: value of the node reached by
`#getNode`, when any. -/
def get (m : Trie) (p : Pattern) : Option Nat :=
  (getNode (getKeys p.tokens p.kind) m).bind Trie.value

end PatternMap

/-- Test for a literal edge key, used to delimit the wildcard-free
fragment of the pattern language in the independence property. -/
def isLitKey : Key → Bool
  | .lit _ => true
  | _ => false

/-- Single-branch trie holding one value at the end of a key path;
this is the shape `PatternMap.set` builds when inserting into an empty
map. -/
def chainTrie : List Key → Nat → Trie
  | [], v => .node (some v) []
  | k :: ks, v => .node none [(k, chainTrie ks v)]

/-- Value reached by `PatternMap.#getNode` along a key sequence, the
composition used by `PatternMap.get`. -/
def PatternMap.getValue (ks : List Key) (t : Trie) : Option Nat :=
  (PatternMap.getNode ks t).bind Trie.value

/-- JavaScript values as they occur in parsed envelopes, header maps
and verification reasons: `undefined`, `null`, booleans, integers and
strings.  Non-integral numbers and nested objects play no role in the
routed control flow modelled below ( `Number.isInteger` rejects the
former, and the latter only pass through unchanged). -/
inductive JsVal where
  | undef
  | nul
  | b (x : Bool)
  | i (n : Int)
  | s (str : String)
deriving DecidableEq, Repr

/-- Parsed header descriptor (`{ value, params }` as produced by the
header grammar of `src/RequestParser.js`).  A `null` params object is
modelled as the empty list; the code below only ever reads parameters
through lookups. -/
structure HeaderDesc where
  value : String
  params : List (String × String) := []
deriving DecidableEq, Repr

/-- Parsed header map: lowercased header name to the non-empty list of
descriptors (head and tail, since the header parsers always yield at
least one descriptor per present header line). -/
abbrev Headers := List (String × (HeaderDesc × List HeaderDesc))

/-- Verification result returned by `WebEntity.verify` and the
authentication protocols (`VerifyResult` in the specification):
`ok`, and optionally the failed scheme, an HTTP status and a reason
parameter map. -/
structure VerifyResult where
  ok : Bool := false
  scheme : Option String := none
  status : Option Int := none
  reason : Option (List (String × JsVal)) := none
deriving DecidableEq, Repr

/-- JavaScript `Array.prototype.join` with a separator, used for
challenge lists and reason parameter lists. -/
def joinList (sep : String) : List String → String
  | [] => ""
  | [x] => x
  | x :: y :: rest => x ++ sep ++ joinList sep (y :: rest)

/-- Escape of one character inside a JSON string literal as performed
by `JSON.stringify`: quote and backslash are backslash-escaped, the
common control characters use their short escapes, remaining control
characters use a `\u00XX` escape, everything else is kept. -/
def escapeChar (c : Char) : String :=
  if c = '"' then "\\\""
  else if c = '\\' then "\\\\"
  else if c = '\n' then "\\n"
  else if c = '\r' then "\\r"
  else if c = '\t' then "\\t"
  else if c.toNat = 8 then "\\b"
  else if c.toNat = 12 then "\\f"
  else if c.toNat < 32 then
    "\\u00" ++ String.mk [(Nat.digitChar (c.toNat / 16)), (Nat.digitChar (c.toNat % 16))]
  else String.singleton c

/-- Escape of a whole string for a JSON string literal. -/
def escapeString (s : String) : String :=
  String.join (s.toList.map escapeChar)

/-- Rendering of a parameter value by `JSON.stringify` as used in
`Router.route` when assembling reason parameters: strings are quoted
and escaped, numbers and booleans and `null` print canonically.
`JSON.stringify(undefined)` is `undefined`; its subsequent string
concatenation in the source renders the text `"undefined"`. -/
def jsonStringifyVal : JsVal → String
  | .undef => "undefined"
  | .nul => "null"
  | .b true => "true"
  | .b false => "false"
  | .i n => toString n
  | .s s => "\"" ++ escapeString s ++ "\""

/-- Re-escaping pass of `Router.route` (`src/Router.js` line 283) for
reason values that already look like quoted strings: the regular
expression replace over maximal runs of backslashes followed by a
quote prepends one backslash whenever the run of backslashes is even,
so that every quote inside ends up escaped.  The accumulator counts
pending backslashes. -/
def requoteGo : List Char → Nat → List Char
  | [], pending => List.replicate pending '\\'
  | c :: cs, pending =>
    if c = '\\' then requoteGo cs (pending + 1)
    else if c = '"' then
      (if pending % 2 = 0 then List.replicate (pending + 1) '\\'
       else List.replicate pending '\\') ++ '"' :: requoteGo cs 0
    else List.replicate pending '\\' ++ c :: requoteGo cs 0

/-- Rendering of one reason parameter (`src/Router.js` lines 278-288):
a string value of length at least two that starts and ends with a
quote is treated as an already-quoted string, its interior re-escaped;
every other value is rendered with `JSON.stringify`. -/
def reasonParam : String × JsVal → String
  | (k, .s v) =>
    if v.length ≥ 2 && jsStartsWith v "\"" && jsEndsWith v "\"" then
      k ++ "=\"" ++ String.mk (requoteGo ((v.toList.drop 1).dropLast) 0) ++ "\""
    else k ++ "=" ++ jsonStringifyVal (.s v)
  | (k, v) => k ++ "=" ++ jsonStringifyVal v

/-- Rendering of the reason parameter list joined by `", "`. -/
def renderReason (r : List (String × JsVal)) : String :=
  joinList ", " (r.map reasonParam)

/-- Join of all registered challenges (`endpoint.getChallenges()`
followed by `challenges.join(", ")` in `src/Router.js` line 265-266).
An endpoint's protocols are given as an ordered scheme-to-challenge
map mirroring the `#auth_protocols` map of `src/_WebEntity.js`;
challenges of the protocols modelled here are always defined, so the
undefined-filter of `getChallenges` is the identity. -/
def joinChallenges (protocols : List (String × String)) : String :=
  joinList ", " (protocols.map Prod.snd)

/-- Value of the `WWW-Authenticate` header assembled by `Router.route`
(`src/Router.js` lines 264-292) for a failed verification: with no
failed scheme, the join of all challenges; with a failed scheme, that
scheme's challenge (`endpoint.getChallenge`) extended by the rendered
reason parameters, separated by a space when the challenge equals the
bare scheme and by `", "` otherwise.  A failed scheme that is not
registered yields `undefined` from `getChallenge`: with no reason the
header value stays `undefined` (modelled as `none`), with a reason the
string concatenation of the source coerces it to the text
`"undefined"`. -/
def wwwAuthValue (protocols : List (String × String)) (v : VerifyResult) : Option String :=
  match v.scheme with
  | none => some (joinChallenges protocols)
  | some sch =>
    match List.lookup sch protocols, v.reason with
    | some chal, none => some chal
    | some chal, some r =>
      some (chal ++ (if chal = sch then " " else ", ") ++ renderReason r)
    | none, none => none
    | none, some r => some ("undefined" ++ ", " ++ renderReason r)

/-- Response body as assembled by `Router.route`: absent, an error
object `{error: {message?, status}}`, or the JSON serialisation of the
remaining envelope fields.  The byte-level serialisation and the
derived `content-length` header are not modelled. -/
inductive Body where
  | empty
  | errorJson (message : Option String) (status : Int)
  | jsonObj (fields : List (String × JsVal))
deriving DecidableEq, Repr

/-- Response produced by the router: status code, headers in the order
they are assembled (the `content-length` bookkeeping is omitted), and
the body. -/
structure Response where
  status : Int
  headers : List (String × JsVal)
  body : Body
deriving DecidableEq, Repr

/-- Typed handler error (`WebApiError` of `src/WebApiError.js`) as
consumed by the router: its status code, description and optional
`Retry-After` value (already normalised to an HTTP-date string). -/
structure WebApiErr where
  statusCode : Int
  description : String
  retryAfter : Option String := none
deriving DecidableEq, Repr

/-- Outcome of the awaited handler invocation
`Result(endpoint[method_lc](params))`: a resolved envelope (a `null`
resolution is the empty envelope, via `result.ok ?? {}`), a typed
`WebApiError` rejection, or any other rejection. -/
inductive HandlerOut where
  | ok (env : List (String × JsVal))
  | errTyped (e : WebApiErr)
  | errUntyped
deriving DecidableEq, Repr

/-- Field read from an envelope object: the value when the field is
present, JavaScript `undefined` otherwise. -/
def getField (env : List (String × JsVal)) (k : String) : JsVal :=
  (List.lookup k env).getD JsVal.undef

/-- Rest fields of a destructuring `{a, b, ...rest} = env`: the fields
of the envelope minus the listed keys, order preserved. -/
def restFields (env : List (String × JsVal)) (ks : List String) : List (String × JsVal) :=
  env.filter (fun kv => !(ks.contains kv.1))

/-- Boolean `typeof v === "boolean"` test. -/
def isBoolVal : JsVal → Bool
  | .b _ => true
  | _ => false

/-- Status override check used across the envelope branches of
`Router.route`: `Number.isInteger(x) && 200 <= x && x <= 599`.  Only
integer numbers exist in `JsVal`, so the integer test is the
constructor test. -/
def statusOverride (v : JsVal) : Option Int :=
  match v with
  | .i n => if 200 ≤ n && n ≤ 599 then some n else none
  | _ => none

/-- Status selection of the `PUT` envelope branch (`src/Router.js`
lines 416-426). -/
def putStatus (env : List (String × JsVal)) : Int :=
  if isBoolVal (getField env "noContent") && isBoolVal (getField env "created") then 200
  else if getField env "noContent" = JsVal.b true then 204
  else if getField env "created" = JsVal.b true then 201
  else (statusOverride (getField env "statusCode")).getD 200

/-- Status selection of the `DELETE` envelope branch (`src/Router.js`
lines 434-444). -/
def deleteStatus (env : List (String × JsVal)) : Int :=
  if isBoolVal (getField env "noContent") && isBoolVal (getField env "accepted") then 200
  else if getField env "noContent" = JsVal.b true then 204
  else if getField env "accepted" = JsVal.b true then 202
  else (statusOverride (getField env "statusCode")).getD 200

/-- Status selection of the generic envelope branch (`src/Router.js`
lines 459-463), used for `GET`, `POST`, `PATCH` and `OPTIONS`. -/
def genericStatus (env : List (String × JsVal)) : Int :=
  (statusOverride (getField env "statusCode")).getD 200

/-- HTTP methods a `WebApi` can dispatch (`HttpMethods` in
`src/WebApi.js`, in source order). -/
def HttpMethods : List String :=
  ["GET", "POST", "PUT", "DELETE", "HEAD", "OPTIONS", "PATCH"]

/-- Translation of `WebApi.supports` (`src/WebApi.js` lines 832-844)
for a `WebApi` instance: the method string uppercases to one of the
seven dispatchable methods and the direct prototype of the instance
has an own, function-valued property under the lowercased method name.
The endpoint is represented by exactly that set of own function-valued
property names (`protoMethods`); the `instanceof` and string type
guards of the source are discharged by the types. -/
def WebApi.supports (protoMethods : List String) (method : String) : Bool :=
  HttpMethods.contains (jsToUpper method) && protoMethods.contains (jsToLower method)

/-- Authentication protocol as seen by `WebEntity.verify`: its scheme
(the `scheme` getter, e.g. `"Digest"` for `DigestAuthProtocol`) and
the verification result its `verify` resolves to for the request under
consideration. -/
structure AuthProtocolM where
  scheme : String
  result : VerifyResult
deriving DecidableEq, Repr

/-- Protocol map lookup of `WebEntity.getAuthProtocol`
(`src/_WebEntity.js` line 2144-2146): the `#auth_protocols` map is
built by inserting each protocol under its verbatim `scheme` string,
later registrations overwriting earlier ones with the same key, and
`Map.get` compares keys exactly.  The fold returns the last protocol
whose scheme equals the argument. -/
def WebEntity.getAuthProtocol (ps : List AuthProtocolM) (sch : String) : Option AuthProtocolM :=
  ps.foldl (fun acc p => if p.scheme = sch then some p else acc) none

/-- Translation of `WebEntity.verify` (`src/_WebEntity.js` lines
2093-2106): with no registered protocol the result is `{ok: true}`;
otherwise the first `authorization` descriptor is read (absent header
yields `{ok: false}`), its `scheme` parameter is looked up in the
protocol map, and on a hit the protocol's own verification result is
returned, on a miss `{ok: false}` without a scheme. -/
def WebEntity.verify (ps : List AuthProtocolM) (authHeader : Option HeaderDesc) : VerifyResult :=
  if ps.isEmpty then { ok := true }
  else
    match authHeader with
    | none => { ok := false }
    | some d =>
      match List.lookup "scheme" d.params with
      | none => { ok := false }
      | some sch =>
        match WebEntity.getAuthProtocol ps sch with
        | none => { ok := false }
        | some p => p.result

/-- Translation of `split_scheme_and_token68`
(`src/RequestParser.js` lines 1066-1076), applied to every emitted
credentials descriptor: the descriptor value is split on spaces, the
first part is stored lowercased under the synthetic parameter key
`"scheme"` (the source comments that the scheme matches
case-insensitively), and a non-empty second part is stored under
`"token68"`. -/
def splitSchemeAndToken68 (d : HeaderDesc) : HeaderDesc :=
  match jsSplitOnSpace d.value with
  | [] => { d with params := d.params ++ [("scheme", "")] }
  | [scheme] => { d with params := d.params ++ [("scheme", jsToLower scheme)] }
  | scheme :: token68 :: _ =>
    if token68.length > 0 then
      { d with params := d.params ++ [("scheme", jsToLower scheme), ("token68", token68)] }
    else
      { d with params := d.params ++ [("scheme", jsToLower scheme)] }

/-- Content-length verification of `RequestParser.parse`
(`src/RequestParser.js` lines 1619-1631): the declared value (the
numeric reading of the `content-length` header, `-1` when the header
is absent) is compared with the accumulated byte count of the received
chunks; the parse is rejected exactly when a non-negative declared
value differs from the actual count. -/
def RequestParser.contentLengthMismatch (declared : Option Int) (actual : Nat) : Bool :=
  let cl := declared.getD (-1)
  decide (0 ≤ cl) && cl != (actual : Int)

namespace Router

/-- Response of the request-parsing failure branch of `Router.route`
(`src/Router.js` lines 165-177): 400 with an
`{error: {message: "Bad Request", status: 400}}` JSON body. -/
def parseFailureResponse : Response :=
  { status := 400
  , headers := [("content-type", JsVal.s "application/json")]
  , body := .errorJson (some "Bad Request") 400 }

/-- Response of the method-gating branch of `Router.route`
(`src/Router.js` lines 228-249): 405 with an error body naming the
method, the body and its content headers being omitted for `HEAD`. -/
def methodNotAllowedResponse (method : String) : Response :=
  { status := 405
  , headers := if method = "HEAD" then [] else [("content-type", JsVal.s "application/json")]
  , body :=
      if method = "HEAD" then Body.empty
      else Body.errorJson (some (method ++ " is not allowed")) 405 }

/-- Status chosen by the verification-failure branch of `Router.route`
(`src/Router.js` line 255): 401 when no failed scheme is reported,
otherwise the status of the verification result with 401 as the
default. -/
def authFailureStatus (v : VerifyResult) : Int :=
  match v.scheme with
  | none => 401
  | some _ => v.status.getD 401

/-- Response of the verification-failure branch of `Router.route`
(`src/Router.js` lines 253-313): the chosen status, a
`www-authenticate` header assembled from the challenges, and for
non-`HEAD` methods an `{error: {status}}` JSON body. -/
def authFailureResponse (protocols : List (String × String)) (method : String)
    (v : VerifyResult) : Response :=
  { status := authFailureStatus v
  , headers :=
      ("www-authenticate",
        match wwwAuthValue protocols v with
        | some s => JsVal.s s
        | none => JsVal.undef) ::
      (if method = "HEAD" then [] else [("content-type", JsVal.s "application/json")])
  , body :=
      if method = "HEAD" then Body.empty
      else Body.errorJson none (authFailureStatus v) }

/-- Response of the handler-error branch of `Router.route`
(`src/Router.js` lines 387-412): the error's status code, an
`{error: {message: description, status}}` body, and a `retry-after`
header when the error carries one. -/
def handlerErrResponse (e : WebApiErr) : Response :=
  { status := e.statusCode
  , headers :=
      [("content-type", JsVal.s "application/json")] ++
      (match e.retryAfter with
       | some r => [("retry-after", JsVal.s r)]
       | none => [])
  , body := .errorJson (some e.description) e.statusCode }

/-- Envelope translation of `Router.route` for a successfully resolved
handler (`src/Router.js` lines 413-472): `HEAD` replies 204 with the
whole envelope as headers; `PUT` strips the control fields, selects
its status and sends the rest as headers with an empty body; `DELETE`
and the generic branch strip their control fields and send the rest as
a JSON body unless the chosen status is 204. -/
def okResponse (method : String) (env : List (String × JsVal)) : Response :=
  if method = "HEAD" then
    { status := 204, headers := env, body := Body.empty }
  else if method = "PUT" then
    { status := putStatus env
    , headers := restFields env ["statusCode", "noContent", "created"]
    , body := Body.empty }
  else if method = "DELETE" then
    if deleteStatus env = 204 then
      { status := 204, headers := [], body := Body.empty }
    else
      { status := deleteStatus env
      , headers := [("content-type", JsVal.s "application/json")]
      , body := Body.jsonObj (restFields env ["statusCode", "noContent", "accepted"]) }
  else
    if genericStatus env = 204 then
      { status := 204, headers := [], body := Body.empty }
    else
      { status := genericStatus env
      , headers := [("content-type", JsVal.s "application/json")]
      , body := Body.jsonObj (restFields env ["statusCode"]) }

/-- Translation of the `WebApi` arm of `Router.route`
(`src/Router.js` lines 228-475) for a request that parsed successfully
and resolved to a `WebApi` endpoint: the endpoint is its set of
overridden method names (`protoMethods`) and its ordered
scheme-to-challenge map (`protocols`); `vres` is the value
`endpoint.verify(request_desc)` resolved to (`none` for a `null` or
`undefined` resolution, absorbed by the `?? ({ok: false})` of line
251) and `handler` gives the outcome of the dispatched method call,
keyed by the lowercased method name.  The `WebResource` arm and the
404 branch for unresolved endpoints are outside this model. -/
def route (protoMethods : List String) (protocols : List (String × String))
    (method : String) (vres : Option VerifyResult)
    (handler : String → HandlerOut) : Response :=
  if WebApi.supports protoMethods method = false then
    methodNotAllowedResponse method
  else
    let v := vres.getD { ok := false }
    if v.ok = false then
      authFailureResponse protocols method v
    else
      match handler (jsToLower method) with
      | .errTyped e => handlerErrResponse e
      | .errUntyped =>
        handlerErrResponse { statusCode := 500, description := "Something went wrong" }
      | .ok env => okResponse method env

/-- Translation of `Router.#resolveMethodOverride` (`src/Router.js`
lines 508-526): with the option disabled, a non-`POST` method or
absent headers the method is returned unchanged; otherwise the headers
`x-http-method`, `x-http-method-override` and `x-method-override` are
consulted in that order and the first present one supplies the
uppercased value of its first descriptor. -/
def resolveMethodOverride (allows : Bool) (method : String)
    (headers : Option Headers) : String :=
  match headers with
  | none => method
  | some hs =>
    if allows = false ∨ method ≠ "POST" then method
    else
      match List.lookup "x-http-method" hs with
      | some hv => jsToUpper hv.1.value
      | none =>
        match List.lookup "x-http-method-override" hs with
        | some hv => jsToUpper hv.1.value
        | none =>
          match List.lookup "x-method-override" hs with
          | some hv => jsToUpper hv.1.value
          | none => method

end Router

/-! Theorems.  Helper lemmas come first, the claim theorems and their
witnesses follow. -/

mutual

theorem hasProtoKey_revive : ∀ j : Json, hasProtoKey (parseJsonRevive j) = false
  | .null => rfl
  | .bool _ => rfl
  | .num _ => rfl
  | .str _ => rfl
  | .arr xs => by
      simpa [parseJsonRevive, hasProtoKey] using hasProtoKeyList_revive xs
  | .obj kvs => by
      simpa [parseJsonRevive, hasProtoKey] using hasProtoKeyMembers_revive kvs

theorem hasProtoKeyList_revive :
    ∀ xs : List Json, hasProtoKeyList (parseJsonReviveList xs) = false
  | [] => rfl
  | x :: xs => by
      simp [parseJsonReviveList, hasProtoKeyList, hasProtoKey_revive x,
        hasProtoKeyList_revive xs]

theorem hasProtoKeyMembers_revive :
    ∀ kvs : List (String × Json), hasProtoKeyMembers (parseJsonReviveMembers kvs) = false
  | [] => rfl
  | (k, v) :: rest => by
      by_cases hk : k = "__proto__"
      · simp [parseJsonReviveMembers, hk, hasProtoKeyMembers_revive rest]
      · simp [parseJsonReviveMembers, hk, hasProtoKeyMembers, hasProtoKey_revive v,
          hasProtoKeyMembers_revive rest]

end

/-- C9: for every string accepted by the JSON body decoder, the
resulting value contains no own property named `__proto__` at any
nesting depth: whatever tree the built-in parse produced from the wire
JSON, the reviver of `parseJson` has deleted every member keyed
`__proto__` from the decoded result. -/
theorem parseJson_no_proto_key (j : Json) : hasProtoKey (parseJson j) = false :=
  hasProtoKey_revive j

theorem setGo_empty : ∀ (ks : List Key) (v : Nat),
    PatternMap.setGo ks v (Trie.node none []) = chainTrie ks v
  | [], _ => rfl
  | k :: ks, v => by
      simp [PatternMap.setGo, lookupChild, chainTrie, setGo_empty ks v]

theorem getValue_chainTrie : ∀ (ks : List Key) (v : Nat), ks.all isLitKey = true →
    PatternMap.getValue ks (chainTrie ks v) = some v
  | [], _, _ => rfl
  | k :: ks, v, h => by
      rw [List.all_cons, Bool.and_eq_true] at h
      obtain ⟨s, rfl⟩ : ∃ s, k = Key.lit s := by
        cases k with
        | lit s => exact ⟨s, rfl⟩
        | ww => simp [isLitKey] at h
        | w => simp [isLitKey] at h
      simpa [PatternMap.getValue, PatternMap.getNode, chainTrie, Trie.children,
        lookupChild] using getValue_chainTrie ks v h.2

theorem set_set_getValue_lit : ∀ (ks1 ks2 : List Key) (v w : Nat),
    ks1.all isLitKey = true → ks2.all isLitKey = true → ks1 ≠ ks2 →
    PatternMap.getValue ks1 (PatternMap.setGo ks2 w (chainTrie ks1 v)) = some v ∧
    PatternMap.getValue ks2 (PatternMap.setGo ks2 w (chainTrie ks1 v)) = some w
  | [], [], _, _, _, _, hne => absurd rfl hne
  | [], k2 :: r2, v, w, _, h2, _ => by
      rw [List.all_cons, Bool.and_eq_true] at h2
      obtain ⟨s2, rfl⟩ : ∃ s, k2 = Key.lit s := by
        cases k2 with
        | lit s => exact ⟨s, rfl⟩
        | ww => simp [isLitKey] at h2
        | w => simp [isLitKey] at h2
      constructor
      · simp [PatternMap.setGo, chainTrie, lookupChild, PatternMap.getValue,
          PatternMap.getNode, Trie.value]
      · simpa [PatternMap.setGo, chainTrie, lookupChild, PatternMap.getValue,
          PatternMap.getNode, Trie.children, setGo_empty r2 w]
          using getValue_chainTrie r2 w h2.2
  | k1 :: r1, [], v, w, h1, _, _ => by
      rw [List.all_cons, Bool.and_eq_true] at h1
      obtain ⟨s1, rfl⟩ : ∃ s, k1 = Key.lit s := by
        cases k1 with
        | lit s => exact ⟨s, rfl⟩
        | ww => simp [isLitKey] at h1
        | w => simp [isLitKey] at h1
      constructor
      · simpa [PatternMap.setGo, setNodeValue, chainTrie, lookupChild, PatternMap.getValue,
          PatternMap.getNode, Trie.children]
          using getValue_chainTrie r1 v h1.2
      · simp [PatternMap.setGo, setNodeValue, chainTrie, PatternMap.getValue,
          PatternMap.getNode, Trie.value]
  | k1 :: r1, k2 :: r2, v, w, h1, h2, hne => by
      rw [List.all_cons, Bool.and_eq_true] at h1 h2
      obtain ⟨s1, rfl⟩ : ∃ s, k1 = Key.lit s := by
        cases k1 with
        | lit s => exact ⟨s, rfl⟩
        | ww => simp [isLitKey] at h1
        | w => simp [isLitKey] at h1
      obtain ⟨s2, rfl⟩ : ∃ s, k2 = Key.lit s := by
        cases k2 with
        | lit s => exact ⟨s, rfl⟩
        | ww => simp [isLitKey] at h2
        | w => simp [isLitKey] at h2
      by_cases hs : s1 = s2
      · subst hs
        have hr : r1 ≠ r2 := by
          intro hr
          exact hne (by rw [hr])
        have ih := set_set_getValue_lit r1 r2 v w h1.2 h2.2 hr
        constructor
        · simpa [PatternMap.setGo, chainTrie, lookupChild, updateChild,
            PatternMap.getValue, PatternMap.getNode, Trie.children] using ih.1
        · simpa [PatternMap.setGo, chainTrie, lookupChild, updateChild,
            PatternMap.getValue, PatternMap.getNode, Trie.children] using ih.2
      · constructor
        · simpa [PatternMap.setGo, chainTrie, lookupChild, hs, Ne.symm hs,
            PatternMap.getValue, PatternMap.getNode, Trie.children]
            using getValue_chainTrie r1 v h1.2
        · simpa [PatternMap.setGo, chainTrie, lookupChild, hs, Ne.symm hs,
            setGo_empty r2 w, PatternMap.getValue, PatternMap.getNode, Trie.children]
            using getValue_chainTrie r2 w h2.2

theorem getKeys_exact_lit : ∀ ts : List String,
    ts.all (fun t => !(jsStartsWith t ":")) = true →
    PatternMap.getKeys ts PatternKind.exact = ts.map Key.lit
  | [], _ => rfl
  | [t], h => by
      rw [List.all_cons, Bool.and_eq_true] at h
      have ht : jsStartsWith t ":" = false := by
        simpa using h.1
      simp [PatternMap.getKeys, PatternMap.keyOfToken, ht]
  | t :: t2 :: ts, h => by
      rw [List.all_cons, Bool.and_eq_true] at h
      have ht : jsStartsWith t ":" = false := by
        simpa using h.1
      simp [PatternMap.getKeys, PatternMap.keyOfToken, ht,
        getKeys_exact_lit (t2 :: ts) h.2]

theorem map_lit_inj : ∀ (l1 l2 : List String), l1.map Key.lit = l2.map Key.lit → l1 = l2
  | [], [], _ => rfl
  | [], _ :: _, h => by simp at h
  | _ :: _, [], h => by simp at h
  | a :: l1, b :: l2, h => by
      simp only [List.map_cons, List.cons.injEq, Key.lit.injEq] at h
      rw [h.1, map_lit_inj l1 l2 h.2]

theorem all_isLitKey_map_lit (l : List String) : (l.map Key.lit).all isLitKey = true := by
  induction l with
  | nil => rfl
  | cons a l ih => simp [isLitKey, ih]

/-- C3 counterexample: the patterns `/a/b` (tokens `["a", "b"]`) and
`/a/:x` (tokens `["a", ":x"]`) have different token sequences and both
`set` calls succeed, yet after `set(/a/b, 1)` and `set(/a/:x, 2)` the
lookup of `/a/b` returns 2, the other pattern's value: the second
insertion silently traversed the node holding the literal child and,
on lookup, the SEGMENT_WILDCARD child shadows the literal sibling. -/
theorem patternMap_distinct_patterns_share_value :
    PatternMap.get
      (PatternMap.set (PatternMap.set PatternMap.empty ⟨["a", "b"], .exact⟩ 1)
        ⟨["a", ":x"], .exact⟩ 2)
      ⟨["a", "b"], .exact⟩ = some 2 ∧
    PatternMap.get
      (PatternMap.set (PatternMap.set PatternMap.empty ⟨["a", "b"], .exact⟩ 1)
        ⟨["a", ":x"], .exact⟩ 2)
      ⟨["a", ":x"], .exact⟩ = some 2 ∧
    (some 2 : Option Nat) ≠ some 1 := by
  decide

/-- C3 (amended): for two patterns built solely from literal tokens
(exact kind, no parameter or wildcard tokens) whose token sequences
differ, successful `set` of both leaves each lookup with its own
value; when a parameter token of one pattern collides with a literal
of the other, both key sequences reach the shared wildcard branch and
the later `set` wins. -/
theorem patternMap_literal_patterns_independent (ts1 ts2 : List String) (v w : Nat)
    (h1 : ts1.all (fun t => !(jsStartsWith t ":")) = true)
    (h2 : ts2.all (fun t => !(jsStartsWith t ":")) = true)
    (hne : ts1 ≠ ts2) :
    PatternMap.get
      (PatternMap.set (PatternMap.set PatternMap.empty ⟨ts1, .exact⟩ v) ⟨ts2, .exact⟩ w)
      ⟨ts1, .exact⟩ = some v ∧
    PatternMap.get
      (PatternMap.set (PatternMap.set PatternMap.empty ⟨ts1, .exact⟩ v) ⟨ts2, .exact⟩ w)
      ⟨ts2, .exact⟩ = some w := by
  have hk1 := getKeys_exact_lit ts1 h1
  have hk2 := getKeys_exact_lit ts2 h2
  have hkne : ts1.map Key.lit ≠ ts2.map Key.lit := fun h => hne (map_lit_inj _ _ h)
  have main := set_set_getValue_lit (ts1.map Key.lit) (ts2.map Key.lit) v w
    (all_isLitKey_map_lit ts1) (all_isLitKey_map_lit ts2) hkne
  constructor
  · simpa [PatternMap.get, PatternMap.set, PatternMap.empty, PatternMap.getValue,
      hk1, hk2, setGo_empty] using main.1
  · simpa [PatternMap.get, PatternMap.set, PatternMap.empty, PatternMap.getValue,
      hk1, hk2, setGo_empty] using main.2

/-- Witness for the amended C3 theorem at the literal patterns `/a/b`
and `/a/c` with values 1 and 2. -/
theorem patternMap_literal_patterns_independent_witness :
    ((["a", "b"] : List String).all (fun t => !(jsStartsWith t ":")) = true) ∧
    ((["a", "c"] : List String).all (fun t => !(jsStartsWith t ":")) = true) ∧
    ((["a", "b"] : List String) ≠ ["a", "c"]) ∧
    (PatternMap.get
      (PatternMap.set (PatternMap.set PatternMap.empty ⟨["a", "b"], .exact⟩ 1)
        ⟨["a", "c"], .exact⟩ 2)
      ⟨["a", "b"], .exact⟩ = some 1 ∧
    PatternMap.get
      (PatternMap.set (PatternMap.set PatternMap.empty ⟨["a", "b"], .exact⟩ 1)
        ⟨["a", "c"], .exact⟩ 2)
      ⟨["a", "c"], .exact⟩ = some 2) :=
  ⟨by decide, by decide, by decide,
    patternMap_literal_patterns_independent ["a", "b"] ["a", "c"] 1 2
      (by decide) (by decide) (by decide)⟩

/-- C4 counterexample: inserting the literal pattern `/a/b` after the
parameterised pattern `/a/:x` raises no setup-time error: the
insertion silently traverses the existing SEGMENT_WILDCARD child and
overwrites the wildcard entry's value, so afterwards both lookups
yield the later value 1 instead of an error having occurred. -/
theorem patternMap_set_silent_on_conflict :
    PatternMap.get
      (PatternMap.set (PatternMap.set PatternMap.empty ⟨["a", ":x"], .exact⟩ 2)
        ⟨["a", "b"], .exact⟩ 1)
      ⟨["a", ":x"], .exact⟩ = some 1 ∧
    PatternMap.get
      (PatternMap.set (PatternMap.set PatternMap.empty ⟨["a", ":x"], .exact⟩ 2)
        ⟨["a", "b"], .exact⟩ 1)
      ⟨["a", "b"], .exact⟩ = some 1 := by
  decide

/-- C4 (amended): `PatternMap.set` raises no error when the uniqueness
rule is violated; instead, at a node with a SEGMENT_WILDCARD child the
insertion of any further token (literal or otherwise) silently
traverses that child; at a node with a TERMINAL_WILDCARD child (and no
SEGMENT_WILDCARD child) the insertion silently stops there and
overwrites that child's value; and a SEGMENT_WILDCARD token is
silently inserted beside existing literal children. -/
theorem patternMap_set_wildcard_traversal :
    (∀ (ch : List (Key × Trie)) (val : Option Nat) (k : Key) (ks : List Key) (v : Nat)
      (c : Trie), lookupChild ch Key.ww = some c →
      PatternMap.setGo (k :: ks) v (Trie.node val ch) =
        Trie.node val (updateChild ch Key.ww (PatternMap.setGo ks v c))) ∧
    (∀ (ch : List (Key × Trie)) (val : Option Nat) (k : Key) (ks : List Key) (v : Nat)
      (c : Trie), lookupChild ch Key.ww = none → lookupChild ch Key.w = some c →
      PatternMap.setGo (k :: ks) v (Trie.node val ch) =
        Trie.node val (updateChild ch Key.w (setNodeValue v c))) ∧
    (∀ (ch : List (Key × Trie)) (val : Option Nat) (ks : List Key) (v : Nat),
      lookupChild ch Key.ww = none → lookupChild ch Key.w = none →
      PatternMap.setGo (Key.ww :: ks) v (Trie.node val ch) =
        Trie.node val (ch ++ [(Key.ww, PatternMap.setGo ks v (Trie.node none []))])) := by
  refine ⟨?_, ?_, ?_⟩
  · intro ch val k ks v c hww
    simp [PatternMap.setGo, hww]
  · intro ch val k ks v c hww hw
    simp [PatternMap.setGo, hww, hw]
  · intro ch val ks v hww hw
    simp [PatternMap.setGo, hww, hw]

/-- Witness for the amended C4 theorem: at a node whose only child is
a SEGMENT_WILDCARD holding 7, inserting key `b` descends into that
wildcard child. -/
theorem patternMap_set_wildcard_traversal_witness :
    lookupChild [(Key.ww, Trie.node (some 7) [])] Key.ww = some (Trie.node (some 7) []) ∧
    PatternMap.setGo [Key.lit "b"] 1 (Trie.node none [(Key.ww, Trie.node (some 7) [])]) =
      Trie.node none (updateChild [(Key.ww, Trie.node (some 7) [])] Key.ww
        (PatternMap.setGo [] 1 (Trie.node (some 7) []))) :=
  ⟨rfl, patternMap_set_wildcard_traversal.1 _ _ (Key.lit "b") [] 1 _ rfl⟩

theorem joinList_length_ge (sep : String) : ∀ (x : String) (xs : List String),
    x.length ≤ (joinList sep (x :: xs)).length
  | _, [] => le_refl _
  | x, y :: ys => by
      simp only [joinList, String.length_append]
      omega

/-- C5: for every `WebApi` endpoint and method among the seven
dispatchable HTTP methods, `WebApi.supports` holds exactly when the
endpoint's class overrides the handler (an own function-valued
property of the direct prototype under the lowercased method name);
and a routed request whose method is unsupported receives the 405
response, whose construction does not involve the handler, so the
handler is never invoked. -/
theorem webApi_supports_iff_and_405 :
    (∀ (protoMethods : List String) (m : String), m ∈ HttpMethods →
      (WebApi.supports protoMethods m = true ↔
        protoMethods.contains (jsToLower m) = true)) ∧
    (∀ (protoMethods : List String) (protocols : List (String × String)) (m : String)
      (vres : Option VerifyResult) (handler : String → HandlerOut),
      WebApi.supports protoMethods m = false →
      Router.route protoMethods protocols m vres handler = Router.methodNotAllowedResponse m ∧
      (Router.methodNotAllowedResponse m).status = 405) := by
  constructor
  · intro pm m hm
    have hup : HttpMethods.contains (jsToUpper m) = true := by
      simp only [HttpMethods, List.mem_cons, List.not_mem_nil, or_false] at hm
      rcases hm with rfl | rfl | rfl | rfl | rfl | rfl | rfl <;> decide
    unfold WebApi.supports
    rw [hup, Bool.true_and]
  · intro pm prot m vres handler hsup
    exact ⟨by simp [Router.route, hsup], rfl⟩

/-- Witness for the C5 theorem: the endpoint overriding only `get`
supports `GET` and not `POST`, and routing a `POST` to it yields the
405 response for any handler. -/
theorem webApi_supports_iff_and_405_witness :
    ("GET" ∈ HttpMethods) ∧
    (WebApi.supports ["get"] "GET" = true ↔
      (["get"] : List String).contains (jsToLower "GET") = true) ∧
    (WebApi.supports ["get"] "POST" = false) ∧
    (Router.route ["get"] [] "POST" none (fun _ => HandlerOut.ok []) =
        Router.methodNotAllowedResponse "POST" ∧
      (Router.methodNotAllowedResponse "POST").status = 405) :=
  ⟨by decide, webApi_supports_iff_and_405.1 ["get"] "GET" (by decide), by decide,
    webApi_supports_iff_and_405.2 ["get"] [] "POST" none (fun _ => HandlerOut.ok [])
      (by decide)⟩

/-- C1 counterexample: the router honours any status a verifier
returns alongside a failed scheme, not only 400 or 403: with a
registered Digest protocol and a verification result `{ok: false,
scheme: "Digest", status: 500}` the response status is 500, outside
{400, 401, 403}.  In addition, a registered protocol whose challenge
is the empty string makes the assembled WWW-Authenticate value empty,
refuting unconditional non-emptiness. -/
theorem route_auth_failure_claim_refuted :
    (Router.route ["get"] [("Digest", "Digest realm=\"api\"")] "GET"
      (some { ok := false, scheme := some "Digest", status := some 500 })
      (fun _ => HandlerOut.ok [])).status = 500 ∧
    ((500 : Int) ≠ 400 ∧ (500 : Int) ≠ 401 ∧ (500 : Int) ≠ 403) ∧
    wwwAuthValue [("X", "")] { ok := false } = some "" := by
  decide

/-- C1 (amended): for a request to an endpoint whose method is
supported, whenever the verification result has `ok = false` the
response status is 401 when no scheme is reported and otherwise the
verifier's returned status whatever its value (401 when none is
returned); the response always carries a `www-authenticate` header
entry, whose value is the join of all registered challenges when no
scheme is reported, and that join is non-empty whenever the first
registered challenge is. -/
theorem route_auth_failure_status_challenge
    (protoMethods : List String) (protocols : List (String × String)) (m : String)
    (v : VerifyResult) (handler : String → HandlerOut)
    (hsup : WebApi.supports protoMethods m = true) (hok : v.ok = false) :
    (Router.route protoMethods protocols m (some v) handler).status =
      Router.authFailureStatus v ∧
    Router.authFailureStatus v =
      (match v.scheme with
       | none => 401
       | some _ => v.status.getD 401) ∧
    List.lookup "www-authenticate"
        (Router.route protoMethods protocols m (some v) handler).headers =
      some (match wwwAuthValue protocols v with
            | some s => JsVal.s s
            | none => JsVal.undef) ∧
    (v.scheme = none → wwwAuthValue protocols v = some (joinChallenges protocols)) ∧
    (v.scheme = none → ∀ (c0 : String) (cs : List String),
      protocols.map Prod.snd = c0 :: cs → 0 < c0.length →
      0 < (joinChallenges protocols).length) := by
  have hroute : Router.route protoMethods protocols m (some v) handler =
      Router.authFailureResponse protocols m v := by
    simp [Router.route, hsup, hok]
  refine ⟨?_, rfl, ?_, ?_, ?_⟩
  · rw [hroute]; rfl
  · rw [hroute]; simp [Router.authFailureResponse]
  · intro hsch; simp [wwwAuthValue, hsch]
  · intro hsch c0 cs hmap hc0
    have : joinChallenges protocols = joinList ", " (c0 :: cs) := by
      simp [joinChallenges, hmap]
    rw [this]
    exact lt_of_lt_of_le hc0 (joinList_length_ge ", " c0 cs)

/-- Witness for the amended C1 theorem with a single Basic protocol
and a schemeless failure. -/
theorem route_auth_failure_status_challenge_witness :
    WebApi.supports ["get"] "GET" = true ∧
    (Router.route ["get"] [("Basic", "Basic realm=\"r\"")] "GET" (some { ok := false })
      (fun _ => HandlerOut.ok [])).status = 401 :=
  ⟨by decide,
    ((route_auth_failure_status_challenge ["get"] [("Basic", "Basic realm=\"r\"")] "GET"
      { ok := false } (fun _ => HandlerOut.ok []) (by decide) rfl).1).trans rfl⟩

/-- C10: a verification result that resolves to JavaScript `null` or
`undefined` is routed exactly like `{ok: false}` without a scheme: the
status is 401 and the `www-authenticate` header carries the comma-join
of all registered protocols' challenges. -/
theorem route_null_verify_result
    (protoMethods : List String) (protocols : List (String × String)) (m : String)
    (handler : String → HandlerOut)
    (hsup : WebApi.supports protoMethods m = true) :
    Router.route protoMethods protocols m none handler =
      Router.route protoMethods protocols m (some { ok := false }) handler ∧
    (Router.route protoMethods protocols m none handler).status = 401 ∧
    List.lookup "www-authenticate"
        (Router.route protoMethods protocols m none handler).headers =
      some (JsVal.s (joinChallenges protocols)) := by
  have hroute : Router.route protoMethods protocols m none handler =
      Router.authFailureResponse protocols m { ok := false } := by
    simp [Router.route, hsup]
  refine ⟨rfl, ?_, ?_⟩
  · rw [hroute]; rfl
  · rw [hroute]; simp [Router.authFailureResponse, wwwAuthValue]

/-- C6: a `PUT` request whose handler resolves to an envelope is
answered with an empty body and the envelope's remaining fields (after
stripping `statusCode`, `noContent` and `created`) as response
headers; the status is 200 when both `noContent` and `created` are
booleans (the warned case), 204 when `noContent` is `true` and
`created` is not a boolean, 201 when `created` is `true` and
`noContent` is not a boolean, an integer `statusCode` in [200, 599]
when no flag applies, and 200 otherwise; in particular the envelope
`{created: true, location: "/x/1"}` yields 201 with the header
`location: /x/1` and an empty body. -/
theorem route_put_envelope
    (protoMethods : List String) (protocols : List (String × String))
    (v : VerifyResult) (env : List (String × JsVal))
    (hsup : WebApi.supports protoMethods "PUT" = true) (hok : v.ok = true) :
    (Router.route protoMethods protocols "PUT" (some v) (fun _ => HandlerOut.ok env) =
      { status := putStatus env
      , headers := restFields env ["statusCode", "noContent", "created"]
      , body := Body.empty }) ∧
    (isBoolVal (getField env "noContent") = true → isBoolVal (getField env "created") = true →
      putStatus env = 200) ∧
    (getField env "noContent" = JsVal.b true → isBoolVal (getField env "created") = false →
      putStatus env = 204) ∧
    (getField env "created" = JsVal.b true → isBoolVal (getField env "noContent") = false →
      putStatus env = 201) ∧
    (∀ n : Int,
      (isBoolVal (getField env "noContent") && isBoolVal (getField env "created")) = false →
      getField env "noContent" ≠ JsVal.b true → getField env "created" ≠ JsVal.b true →
      getField env "statusCode" = JsVal.i n → 200 ≤ n → n ≤ 599 → putStatus env = n) ∧
    ((isBoolVal (getField env "noContent") && isBoolVal (getField env "created")) = false →
      getField env "noContent" ≠ JsVal.b true → getField env "created" ≠ JsVal.b true →
      statusOverride (getField env "statusCode") = none → putStatus env = 200) ∧
    (Router.route protoMethods protocols "PUT" (some v)
        (fun _ => HandlerOut.ok [("created", JsVal.b true), ("location", JsVal.s "/x/1")]) =
      { status := 201, headers := [("location", JsVal.s "/x/1")], body := Body.empty }) := by
  have hroute : ∀ env2 : List (String × JsVal),
      Router.route protoMethods protocols "PUT" (some v) (fun _ => HandlerOut.ok env2) =
        Router.okResponse "PUT" env2 := by
    intro env2
    simp [Router.route, hsup, hok]
  refine ⟨?_, ?_, ?_, ?_, ?_, ?_, ?_⟩
  · rw [hroute env]; rfl
  · intro hnc hcr
    simp [putStatus, hnc, hcr]
  · intro hnc hcr
    have hncb : isBoolVal (getField env "noContent") = true := by rw [hnc]; rfl
    simp [putStatus, hnc, hcr, hncb]
  · intro hcr hnc
    have hnct : ¬(getField env "noContent" = JsVal.b true) := by
      intro h
      rw [h] at hnc
      exact absurd hnc (by decide)
    simp [putStatus, hcr, hnc, hnct]
  · intro n hflags hnct hcrt hsc h200 h599
    simp only [putStatus, hflags, Bool.false_eq_true, if_false, hnct, hcrt, if_neg, hsc,
      statusOverride]
    have : (200 ≤ n && n ≤ 599) = true := by
      simp [h200, h599]
    simp [this]
  · intro hflags hnct hcrt hso
    simp [putStatus, hflags, hnct, hcrt, hso]
  · rw [hroute]; decide

/-- Witness for the C6 theorem at the endpoint overriding `put`, an
accepting verification and the envelope of the concrete scenario. -/
theorem route_put_envelope_witness :
    WebApi.supports ["put"] "PUT" = true ∧
    ({ ok := true } : VerifyResult).ok = true ∧
    Router.route ["put"] [] "PUT" (some { ok := true })
        (fun _ => HandlerOut.ok [("created", JsVal.b true), ("location", JsVal.s "/x/1")]) =
      { status := 201, headers := [("location", JsVal.s "/x/1")], body := Body.empty } :=
  ⟨by decide, rfl,
    (route_put_envelope ["put"] [] { ok := true } [] (by decide) rfl).2.2.2.2.2.2⟩

/-- C7: a parsed request that declares a Content-Length is rejected by
`RequestParser.parse` exactly when the received byte count differs
from the declared value, the router answering such a parse failure
with status 400; with equal counts (or no declared Content-Length) the
check passes and parsing proceeds. -/
theorem contentLength_mismatch_rejects (n : Int) (actual : Nat) (hn : 0 ≤ n) :
    (RequestParser.contentLengthMismatch (some n) actual = true ↔ n ≠ (actual : Int)) ∧
    Router.parseFailureResponse.status = 400 ∧
    RequestParser.contentLengthMismatch none actual = false := by
  refine ⟨?_, rfl, ?_⟩
  · simp [RequestParser.contentLengthMismatch, hn]
  · simp [RequestParser.contentLengthMismatch]

/-- Witness for the C7 theorem: declared length 5 against 3 received
bytes mismatches, the parse-failure response is a 400, and an absent
header never mismatches. -/
theorem contentLength_mismatch_rejects_witness :
    (0 : Int) ≤ 5 ∧
    ((RequestParser.contentLengthMismatch (some 5) 3 = true ↔ (5 : Int) ≠ (3 : Nat)) ∧
      Router.parseFailureResponse.status = 400 ∧
      RequestParser.contentLengthMismatch none 3 = false) :=
  ⟨by decide, contentLength_mismatch_rejects 5 3 (by decide)⟩

/-- C8: the method override applies only to `POST` requests with the
option enabled; the headers `x-http-method`, `x-http-method-override`
and `x-method-override` are consulted in that order, the first present
one winning with the uppercased value of its first descriptor; in
every other situation the original method is kept. -/
theorem resolveMethodOverride_spec :
    (∀ (m : String) (hs : Option Headers),
      Router.resolveMethodOverride false m hs = m) ∧
    (∀ (a : Bool) (m : String) (hs : Option Headers), m ≠ "POST" →
      Router.resolveMethodOverride a m hs = m) ∧
    (∀ (a : Bool) (m : String), Router.resolveMethodOverride a m none = m) ∧
    (∀ (hs : Headers) (hv : HeaderDesc × List HeaderDesc),
      List.lookup "x-http-method" hs = some hv →
      Router.resolveMethodOverride true "POST" (some hs) = jsToUpper hv.1.value) ∧
    (∀ (hs : Headers) (hv : HeaderDesc × List HeaderDesc),
      List.lookup "x-http-method" hs = none →
      List.lookup "x-http-method-override" hs = some hv →
      Router.resolveMethodOverride true "POST" (some hs) = jsToUpper hv.1.value) ∧
    (∀ (hs : Headers) (hv : HeaderDesc × List HeaderDesc),
      List.lookup "x-http-method" hs = none →
      List.lookup "x-http-method-override" hs = none →
      List.lookup "x-method-override" hs = some hv →
      Router.resolveMethodOverride true "POST" (some hs) = jsToUpper hv.1.value) ∧
    (∀ hs : Headers,
      List.lookup "x-http-method" hs = none →
      List.lookup "x-http-method-override" hs = none →
      List.lookup "x-method-override" hs = none →
      Router.resolveMethodOverride true "POST" (some hs) = "POST") := by
  refine ⟨?_, ?_, ?_, ?_, ?_, ?_, ?_⟩
  · intro m hs
    cases hs with
    | none => rfl
    | some hs => simp [Router.resolveMethodOverride]
  · intro a m hs hm
    cases hs with
    | none => rfl
    | some hs => simp [Router.resolveMethodOverride, hm]
  · intro a m
    rfl
  · intro hs hv h1
    simp [Router.resolveMethodOverride, h1]
  · intro hs hv h1 h2
    simp [Router.resolveMethodOverride, h1, h2]
  · intro hs hv h1 h2 h3
    simp [Router.resolveMethodOverride, h1, h2, h3]
  · intro hs h1 h2 h3
    simp [Router.resolveMethodOverride, h1, h2, h3]

/-- Witness for the C8 theorem: with the option enabled, a `POST`
carrying only `x-http-method-override: put` dispatches as `PUT`, while
the same headers on a `GET` leave the method unchanged. -/
theorem resolveMethodOverride_spec_witness :
    List.lookup "x-http-method"
      [("x-http-method-override", (({ value := "put" } : HeaderDesc), ([] : List HeaderDesc)))]
      = none ∧
    List.lookup "x-http-method-override"
      [("x-http-method-override", (({ value := "put" } : HeaderDesc), ([] : List HeaderDesc)))]
      = some (({ value := "put" } : HeaderDesc), ([] : List HeaderDesc)) ∧
    Router.resolveMethodOverride true "POST"
      (some [("x-http-method-override", (({ value := "put" } : HeaderDesc), []))]) =
        jsToUpper "put" ∧
    ("GET" : String) ≠ "POST" ∧
    Router.resolveMethodOverride true "GET"
      (some [("x-http-method-override", (({ value := "put" } : HeaderDesc), []))]) = "GET" :=
  ⟨by decide, by decide,
    resolveMethodOverride_spec.2.2.2.2.1
      [("x-http-method-override", (({ value := "put" } : HeaderDesc), []))]
      (({ value := "put" } : HeaderDesc), []) (by decide) (by decide),
    by decide,
    resolveMethodOverride_spec.2.1 true "GET"
      (some [("x-http-method-override", (({ value := "put" } : HeaderDesc), []))]) (by decide)⟩

/-- C2 (divergence exhibited): the parsed authorization descriptor for
a wire scheme `Digest` stores the lowercased scheme `"digest"`
(`split_scheme_and_token68`), but `WebEntity.getAuthProtocol` looks it
up with exact string comparison against the protocol's verbatim scheme
`"Digest"` (the `scheme` of `DigestAuthProtocol`), so `verify` returns
`{ok: false}` without a scheme instead of delegating to the registered
protocol's `verify`. -/
theorem webEntity_verify_scheme_case_bug :
    (splitSchemeAndToken68 { value := "Digest", params := [("username", "alice")] }).params =
      [("username", "alice"), ("scheme", "digest")] ∧
    WebEntity.verify [{ scheme := "Digest", result := { ok := true, scheme := some "Digest" } }]
      (some (splitSchemeAndToken68 { value := "Digest", params := [("username", "alice")] })) =
      { ok := false } ∧
    ({ ok := false } : VerifyResult) ≠ { ok := true, scheme := some "Digest" } := by
  decide

/-- Witness for the C10 theorem with one registered Digest challenge. -/
theorem route_null_verify_result_witness :
    WebApi.supports ["get"] "GET" = true ∧
    ((Router.route ["get"] [("Digest", "Digest realm=\"r\"")] "GET" none
        (fun _ => HandlerOut.ok [])).status = 401 ∧
      List.lookup "www-authenticate"
          (Router.route ["get"] [("Digest", "Digest realm=\"r\"")] "GET" none
            (fun _ => HandlerOut.ok [])).headers =
        some (JsVal.s (joinChallenges [("Digest", "Digest realm=\"r\"")]))) :=
  ⟨by decide,
    (route_null_verify_result ["get"] [("Digest", "Digest realm=\"r\"")] "GET"
      (fun _ => HandlerOut.ok []) (by decide)).2⟩

end Alier
